import Mathlib

/-!
Verification of the cache synchronization and locking subsystem of the
`foretell` card-search tool (src/main.rs), against its natural-language
specification.

The effectful pipeline of the program is shallowly embedded as pure Lean
functions: file contents become lists of lines (`List String`) or raw
character sequences (`List Char`), the remote catalog becomes a list of
stream items (`Option SetRecord`, where `none` stands for an item that
failed to deserialize, dropped by `.filter_map(|o| o.ok())`), and the
per-set card download (`Card::search`) becomes an oracle
`String → SearchOutcome` giving, for each set code, what the remote
source would answer.  Dates are modelled as day counts (`Nat`); the Rust
`chrono` threshold `now + Duration::weeks(1)` becomes `today + 7`.
The Rust `str::cmp` (lexicographic byte order, which for UTF-8 agrees with
lexicographic code-point order) is embedded as `cmpChars` on
`String.data`.
-/

namespace Foretell

/-- Lexicographic comparison of character sequences; embeds the Rust
comparison `str::cmp` (UTF-8 byte order coincides with code-point order). -/
def cmpChars : List Char → List Char → Ordering
  | [], [] => .eq
  | [], _ :: _ => .lt
  | _ :: _, [] => .gt
  | a :: as, b :: bs =>
    if a < b then .lt
    else if b < a then .gt
    else cmpChars as bs

/-- Rust `str::cmp` on Lean strings. -/
def strCmp (a b : String) : Ordering :=
  cmpChars a.data b.data

/-- Boolean `≤` on strings derived from `strCmp`, used for sorting. -/
def strLe (a b : String) : Bool :=
  !(strCmp a b == .gt)

/-- Embeds Rust `slice::binary_search_by` on a list of strings:
the window is `[left, right)`, `fuel` bounds the number of halving
steps, and the result tells whether the key was found. -/
def binarySearchAux (xs : List String) (key : String) : Nat → Nat → Nat → Bool
  | 0, _, _ => false
  | fuel + 1, left, right =>
    if left < right then
      let mid := (left + right) / 2
      match strCmp (xs.getD mid "") key with
      | .lt => binarySearchAux xs key fuel (mid + 1) right
      | .gt => binarySearchAux xs key fuel left mid
      | .eq => true
    else false

/-- Whether binary search locates `key` in `xs`; embeds
`stored_sets.binary_search_by(|s| s.as_str().cmp(code)).is_ok()`. -/
def storedContains (xs : List String) (key : String) : Bool :=
  binarySearchAux xs key xs.length 0 xs.length

/-- The `scryfall::set::SetType` variants relevant to the filter in
`missing_sets`; all remaining variants are collapsed into the
non-excluded constructors. -/
inductive SetType
  | memorabilia
  | token
  | alchemy
  | treasureChest
  | promo
  | expansion
  | core
  | masters
  | funny
  | other
  deriving DecidableEq, Repr

/-- A remote release descriptor (`scryfall::Set`), with the fields the
sync logic reads.  `released_at` is a day count; `none` models a set with
no release date. -/
structure SetRecord where
  code : String
  name : String
  set_type : SetType
  digital : Bool
  released_at : Option Nat
  deriving DecidableEq, Repr

/-- The array of excluded set types in `missing_sets`. -/
def excludedSetTypes : List SetType :=
  [.memorabilia, .token, .alchemy, .treasureChest, .promo]

/-- First catalog filter: `[...].into_iter().all(|t| s.set_type != t)`. -/
def typeFilterOk (s : SetRecord) : Bool :=
  excludedSetTypes.all (fun t => decide (s.set_type ≠ t))

/-- Embeds `new_set_threashold()`: the current date plus one week (7
days), from `chrono::Utc::now().naive_utc().date() + Duration::weeks(1)`. -/
def new_set_threashold (today : Nat) : Nat :=
  today + 7

/-- Third catalog filter:
`matches!(s.released_at, Some(d) if d <= date_threashold)`. -/
def releasedOk (threshold : Nat) (s : SetRecord) : Bool :=
  match s.released_at with
  | some d => decide (d ≤ threshold)
  | none => false

/-- The chained catalog-stream filters of `missing_sets`: drop per-item
errors (`.filter_map(|o| o.ok())`), then excluded set types, then digital
sets, then sets without an effective release date. -/
def eligibleSets (today : Nat) (catalog : List (Option SetRecord)) : List SetRecord :=
  (((catalog.filterMap id).filter typeFilterOk).filter
      (fun s => !s.digital)).filter (releasedOk (new_set_threashold today))

/-- The three per-record filters of `missing_sets` combined into one
predicate. -/
def eligible (today : Nat) (s : SetRecord) : Bool :=
  typeFilterOk s && !s.digital && releasedOk (new_set_threashold today) s

/-- The eligibility predicate exactly as the claim of the specification words
it (refinement comparison definition, not taken from the source): the
release date must not be unset and must not be strictly in the future
relative to `today` itself — no grace window. -/
def specEligible (today : Nat) (s : SetRecord) : Bool :=
  typeFilterOk s && !s.digital &&
    match s.released_at with
    | some d => decide (d ≤ today)
    | none => false

/-- A card entry as streamed by `Card::search`: its name and optional
type line. -/
structure Card where
  name : String
  type_line : Option String
  deriving DecidableEq, Repr

/-- The known-bad pathological card name (`JUST_DONT` in the source). -/
def JUST_DONT : String :=
  "Our Market Research Shows That Players Like Really Long Card Names So We Made this Card to Have the Absolute Longest Card Name Ever Elemental"

/-- The card-stream pipeline of `update_card_list`: drop per-item errors,
drop entries whose type line is exactly "Basic" or exactly "Token", map
to the name, drop the pathological name.  The result is the list of
names appended to the card list file, in stream order. -/
def cardNames (items : List (Option Card)) : List String :=
  (((items.filterMap id).filter
      (fun c => decide (c.type_line ≠ some "Basic")
        && decide (c.type_line ≠ some "Token"))).map Card.name).filter
    (fun n => decide (n ≠ JUST_DONT))

/-- A desktop notification, reduced to its summary and body. -/
structure Notif where
  summary : String
  body : String
  deriving DecidableEq, Repr

/-- The low-urgency notification emitted at the end of a successful
`update_card_list` run. -/
def setNotif (set_name set_code : String) (count : Nat) : Notif :=
  ⟨s!"Set {set_name} ({set_code}) added!", s!"{count} new cards added!"⟩

/-- What `Card::search(set(code).and(game(Paper)))` answers for one set:
a stream of items (`none` = item that failed to deserialize), the 404
"not yet populated" condition, or any other error. -/
inductive SearchOutcome
  | ok (items : List (Option Card))
  | notFound
  | otherErr
  deriving DecidableEq, Repr

/-- The `anyhow::Result<bool>` returned by `update_card_list`. -/
inductive UpdateResult
  | ok (populated : Bool)
  | err
  deriving DecidableEq, Repr

/-- Observable outcome of one `update_card_list` call: the card list file
after the call, the notifications emitted, the running count of appended
names, and the returned value. -/
structure UpdateOut where
  cardFile : List String
  notifs : List Notif
  count : Nat
  result : UpdateResult
  deriving DecidableEq, Repr

/-- Embeds `update_card_list`: on a successful search, append each
surviving name as one line, count them, and notify; on a 404, return
`Ok(false)` with nothing appended and no notification; on any other
error, return the error with nothing appended. -/
def update_card_list (cardFile : List String) (set_code set_name : String)
    (search : SearchOutcome) : UpdateOut :=
  match search with
  | .ok items =>
    let names := cardNames items
    let count := names.length
    { cardFile := cardFile ++ names
      notifs := [setNotif set_name set_code count]
      count := count
      result := .ok true }
  | .notFound =>
    { cardFile := cardFile, notifs := [], count := 0, result := .ok false }
  | .otherErr =>
    { cardFile := cardFile, notifs := [], count := 0, result := .err }

/-- Running state of one sync pass: the accumulator of kept set codes
(`all_sets`), the card list file, the notifications emitted so far, the
number of `error(...)` reports, and the codes for which a card fetch was
attempted. -/
structure SyncState where
  acc : List String
  cardFile : List String
  notifs : List Notif
  errorReports : Nat
  fetched : List String
  deriving DecidableEq, Repr

/-- Processing of one eligible set in `missing_sets`: binary-search the
stored list; if absent, run `update_card_list` and keep the code exactly
when it returns `Ok(true)`, reporting `Err` outcomes via `error(...)`;
if present, keep the code without fetching. -/
def stepSet (fetch : String → SearchOutcome) (stored : List String)
    (st : SyncState) (s : SetRecord) : SyncState :=
  let not_stored := !(storedContains stored s.code)
  if not_stored then
    let out := update_card_list st.cardFile s.code s.name (fetch s.code)
    match out.result with
    | .ok true =>
      { acc := st.acc ++ [s.code], cardFile := out.cardFile
        notifs := st.notifs ++ out.notifs, errorReports := st.errorReports
        fetched := st.fetched ++ [s.code] }
    | .ok false =>
      { acc := st.acc, cardFile := out.cardFile
        notifs := st.notifs ++ out.notifs, errorReports := st.errorReports
        fetched := st.fetched ++ [s.code] }
    | .err =>
      { acc := st.acc, cardFile := out.cardFile
        notifs := st.notifs ++ out.notifs, errorReports := st.errorReports + 1
        fetched := st.fetched ++ [s.code] }
  else
    { st with acc := st.acc ++ [s.code] }

/-- The stream-and-collect stage of `missing_sets`: fold `stepSet` over
the eligible sets (the model serializes the `buffer_unordered` fetches in
stream order; the kept/dropped decisions and per-set appends are
order-independent). -/
def runSync (today : Nat) (fetch : String → SearchOutcome)
    (stored cardFile : List String)
    (catalog : List (Option SetRecord)) : SyncState :=
  (eligibleSets today catalog).foldl (stepSet fetch stored)
    { acc := [], cardFile := cardFile, notifs := [], errorReports := 0, fetched := [] }

/-- Observable outcome of one whole sync pass. -/
structure PassOut where
  setStore : List String
  rewrote : Bool
  acc : List String
  cardFile : List String
  notifs : List Notif
  errorReports : Nat
  fetched : List String
  deriving DecidableEq, Repr

/-- Embeds `missing_sets`: run the eligible-set fold, then — only if the
accumulator is non-empty — sort it and overwrite the SetStore file with
it; otherwise leave the file as it was. -/
def missing_sets (today : Nat) (fetch : String → SearchOutcome)
    (stored cardFile : List String)
    (catalog : List (Option SetRecord)) : PassOut :=
  let st := runSync today fetch stored cardFile catalog
  if st.acc.isEmpty then
    { setStore := stored, rewrote := false, acc := st.acc
      cardFile := st.cardFile, notifs := st.notifs
      errorReports := st.errorReports, fetched := st.fetched }
  else
    { setStore := st.acc.mergeSort strLe, rewrote := true, acc := st.acc
      cardFile := st.cardFile, notifs := st.notifs
      errorReports := st.errorReports, fetched := st.fetched }

/-- The sequence of chunks `store_sets` writes: the bytes of each code, then a
newline.  File contents are modelled as character sequences. -/
def writeChunks (sets : List String) : List (List Char) :=
  sets.flatMap (fun c => [c.data, ['\n']])

/-- Embeds `store_sets`: `File::create` truncates the file to empty, then
the chunks are written in order and the file is flushed.  The first
component is the final contents; the second is the list of every
observable on-disk state, starting with the truncated state (the old
contents are destroyed before the first write). -/
def store_sets (sets : List String) : List Char × List (List Char) :=
  (writeChunks sets).foldl
    (fun st chunk => (st.1 ++ chunk, st.2 ++ [st.1 ++ chunk])) ([], [[]])

/-- Result of one `fmutex::try_lock` attempt. -/
inductive LockResult
  | acquired
  | alreadyHeld
  | ioErr
  deriving DecidableEq, Repr

/-- Modelled from the spec: `fmutex::try_lock` is provided by an
external collaborator; per the UpdateLock contract it is a non-blocking
atomic test-and-set on the advisory lock of the lock file of the cache
directory.  `fault` injects an I/O error; otherwise the attempt acquires the
lock exactly when no other holder exists. -/
def try_lock (fault : Bool) (held : Bool) : LockResult × Bool :=
  if fault then (.ioErr, held)
  else if held then (.alreadyHeld, held)
  else (.acquired, true)

/-- What `card_list` does after a lock attempt. -/
inductive SyncAction
  | runSync
  | skipSilently
  | reportAndSkip
  deriving DecidableEq, Repr

/-- Embeds the `match fmutex::try_lock(&lock_file)` in `card_list`:
`Ok(Some(guard))` spawns the sync pass, `Ok(None)` does nothing, and
`Err(e)` reports the error and does not sync. -/
def card_list_dispatch : LockResult → SyncAction
  | .acquired => .runSync
  | .alreadyHeld => .skipSilently
  | .ioErr => .reportAndSkip

/-- Whether an action can write SetStore or CardListStore: only the
spawned sync pass (`missing_sets`) ever writes either file. -/
def actionWrites : SyncAction → Bool
  | .runSync => true
  | .skipSilently => false
  | .reportAndSkip => false

/-- Whether a search outcome is a success (`Ok` in the source). -/
def isOkSearch : SearchOutcome → Bool
  | .ok _ => true
  | _ => false

/-- Whether the code of an eligible set is kept in the accumulator: it is
already stored, or its fetch succeeds. -/
def keepCode (fetch : String → SearchOutcome) (stored : List String)
    (c : String) : Bool :=
  storedContains stored c || isOkSearch (fetch c)

/-- The lines a fetch of set `c` appends to the card list file. -/
def fetchAppends (fetch : String → SearchOutcome) (c : String) : List String :=
  match fetch c with
  | .ok items => cardNames items
  | _ => []

theorem cmpChars_eq_iff (as bs : List Char) : cmpChars as bs = Ordering.eq ↔ as = bs := by
  induction as generalizing bs with
  | nil => cases bs <;> simp [cmpChars]
  | cons a as ih =>
    cases bs with
    | nil => simp [cmpChars]
    | cons b bs =>
      rcases lt_trichotomy a b with h | h | h
      · simp [cmpChars, h, h.ne]
      · subst h
        simp [cmpChars, lt_irrefl, ih]
      · simp [cmpChars, h, not_lt_of_gt h, h.ne']

theorem cmpChars_swap (as bs : List Char) : cmpChars bs as = (cmpChars as bs).swap := by
  induction as generalizing bs with
  | nil => cases bs <;> simp [cmpChars, Ordering.swap]
  | cons a as ih =>
    cases bs with
    | nil => simp [cmpChars, Ordering.swap]
    | cons b bs =>
      rcases lt_trichotomy a b with h | h | h
      · simp [cmpChars, h, not_lt_of_gt h, Ordering.swap]
      · subst h
        simp [cmpChars, lt_irrefl, ih]
      · simp [cmpChars, h, not_lt_of_gt h, Ordering.swap]

theorem cmpChars_lt_trans {as bs cs : List Char}
    (h1 : cmpChars as bs = Ordering.lt) (h2 : cmpChars bs cs = Ordering.lt) :
    cmpChars as cs = Ordering.lt := by
  induction as generalizing bs cs with
  | nil =>
    cases cs with
    | nil =>
      cases bs with
      | nil => exact h1
      | cons b bs => simp [cmpChars] at h2
    | cons c cs => simp [cmpChars]
  | cons a as ih =>
    cases bs with
    | nil => simp [cmpChars] at h1
    | cons b bs =>
      cases cs with
      | nil => simp [cmpChars] at h2
      | cons c cs =>
        rcases lt_trichotomy a b with hab | hab | hab
        · rcases lt_trichotomy b c with hbc | hbc | hbc
          · simp [cmpChars, lt_trans hab hbc]
          · subst hbc
            simp [cmpChars, hab]
          · simp [cmpChars, not_lt_of_gt hbc, hbc] at h2
        · subst hab
          rcases lt_trichotomy a c with hbc | hbc | hbc
          · simp [cmpChars, hbc]
          · subst hbc
            simp [cmpChars, lt_irrefl] at h1 h2 ⊢
            exact ih h1 h2
          · simp [cmpChars, not_lt_of_gt hbc, hbc] at h2
        · simp [cmpChars, not_lt_of_gt hab, hab] at h1

theorem strCmp_eq_iff (a b : String) : strCmp a b = Ordering.eq ↔ a = b := by
  rw [strCmp, cmpChars_eq_iff]
  exact ⟨fun h => String.ext h, fun h => h ▸ rfl⟩

theorem strCmp_swap (a b : String) : strCmp b a = (strCmp a b).swap :=
  cmpChars_swap a.data b.data

theorem strLe_refl (a : String) : strLe a a = true := by
  unfold strLe
  rw [(strCmp_eq_iff a a).mpr rfl]
  rfl

theorem strLe_total (a b : String) : (strLe a b || strLe b a) = true := by
  unfold strLe
  rw [strCmp_swap a b]
  cases strCmp a b <;> rfl

theorem strLe_trans {a b c : String} (h1 : strLe a b = true) (h2 : strLe b c = true) :
    strLe a c = true := by
  unfold strLe at h1 h2 ⊢
  cases hab : strCmp a b with
  | gt =>
    rw [hab] at h1
    exact absurd h1 (by decide)
  | eq =>
    have h : a = b := (strCmp_eq_iff a b).mp hab
    subst h
    exact h2
  | lt =>
    cases hbc : strCmp b c with
    | gt =>
      rw [hbc] at h2
      exact absurd h2 (by decide)
    | eq =>
      have h : b = c := (strCmp_eq_iff b c).mp hbc
      subst h
      rw [hab]
      rfl
    | lt =>
      have h : strCmp a c = Ordering.lt := cmpChars_lt_trans hab hbc
      rw [h]
      rfl

theorem sorted_getD_le {xs : List String}
    (hs : List.Pairwise (fun a b => strLe a b = true) xs)
    {i j : Nat} (hij : i ≤ j) (hj : j < xs.length) :
    strLe (xs.getD i "") (xs.getD j "") = true := by
  rcases Nat.lt_or_ge i j with h | h
  · have hi : i < xs.length := lt_trans h hj
    rw [List.getD_eq_getElem _ _ hi, List.getD_eq_getElem _ _ hj]
    exact List.pairwise_iff_getElem.mp hs i j hi hj h
  · have h : i = j := le_antisymm hij h
    subst h
    exact strLe_refl _

theorem binarySearchAux_iff (xs : List String) (key : String)
    (hs : List.Pairwise (fun a b => strLe a b = true) xs) :
    ∀ fuel left right, right ≤ xs.length → right - left ≤ fuel →
      (binarySearchAux xs key fuel left right = true ↔
        ∃ i, left ≤ i ∧ i < right ∧ xs.getD i "" = key) := by
  intro fuel
  induction fuel with
  | zero =>
    intro left right _ hf
    constructor
    · intro h
      simp [binarySearchAux] at h
    · rintro ⟨i, h1, h2, -⟩
      omega
  | succ fuel ih =>
    intro left right hr hf
    by_cases hlr : left < right
    · have hmid1 : left ≤ (left + right) / 2 := by
        rw [Nat.le_div_iff_mul_le (by omega)]
        omega
      have hmid2 : (left + right) / 2 < right := by
        rw [Nat.div_lt_iff_lt_mul (by omega)]
        omega
      have hmlen : (left + right) / 2 < xs.length := lt_of_lt_of_le hmid2 hr
      rw [binarySearchAux]
      simp only [if_pos hlr]
      cases hcmp : strCmp (xs.getD ((left + right) / 2) "") key with
      | eq =>
        constructor
        · intro _
          exact ⟨(left + right) / 2, hmid1, hmid2, (strCmp_eq_iff _ _).mp hcmp⟩
        · intro _
          rfl
      | lt =>
        rw [ih ((left + right) / 2 + 1) right hr (by omega)]
        constructor
        · rintro ⟨i, h1, h2, h3⟩
          exact ⟨i, by omega, h2, h3⟩
        · rintro ⟨i, h1, h2, h3⟩
          refine ⟨i, ?_, h2, h3⟩
          by_contra hcon
          push_neg at hcon
          have hle : strLe (xs.getD i "") (xs.getD ((left + right) / 2) "") = true :=
            sorted_getD_le hs (by omega) hmlen
          rw [h3] at hle
          have hswap := strCmp_swap (xs.getD ((left + right) / 2) "") key
          rw [hcmp] at hswap
          unfold strLe at hle
          rw [hswap] at hle
          exact absurd hle (by decide)
      | gt =>
        rw [ih left ((left + right) / 2) (le_of_lt hmlen) (by omega)]
        constructor
        · rintro ⟨i, h1, h2, h3⟩
          exact ⟨i, h1, by omega, h3⟩
        · rintro ⟨i, h1, h2, h3⟩
          refine ⟨i, h1, ?_, h3⟩
          by_contra hcon
          push_neg at hcon
          have hi : i < xs.length := lt_of_lt_of_le h2 hr
          have hle : strLe (xs.getD ((left + right) / 2) "") (xs.getD i "") = true :=
            sorted_getD_le hs (by omega) hi
          rw [h3] at hle
          unfold strLe at hle
          rw [hcmp] at hle
          exact absurd hle (by decide)
    · constructor
      · intro h
        rw [binarySearchAux] at h
        simp [hlr] at h
      · rintro ⟨i, h1, h2, -⟩
        omega

theorem storedContains_iff {xs : List String} {key : String}
    (hs : List.Pairwise (fun a b => strLe a b = true) xs) :
    storedContains xs key = true ↔ key ∈ xs := by
  unfold storedContains
  rw [binarySearchAux_iff xs key hs xs.length 0 xs.length le_rfl (by omega)]
  constructor
  · rintro ⟨i, -, h2, h3⟩
    rw [List.getD_eq_getElem _ _ h2] at h3
    exact h3 ▸ List.getElem_mem h2
  · intro h
    obtain ⟨i, hi, he⟩ := List.mem_iff_getElem.mp h
    refine ⟨i, Nat.zero_le _, hi, ?_⟩
    rw [List.getD_eq_getElem _ _ hi]
    exact he

theorem storedContains_eq_decide {xs : List String} {key : String}
    (hs : List.Pairwise (fun a b => strLe a b = true) xs) :
    storedContains xs key = decide (key ∈ xs) := by
  rw [Bool.eq_iff_iff, storedContains_iff hs, decide_eq_true_eq]

theorem pairwise_mergeSort_strLe (l : List String) :
    List.Pairwise (fun a b => strLe a b = true) (l.mergeSort strLe) :=
  @List.sorted_mergeSort String strLe (fun _ _ _ h1 h2 => strLe_trans h1 h2) strLe_total l

theorem stepSet_stored {fetch : String → SearchOutcome} {stored : List String}
    {st : SyncState} {s : SetRecord} (h : storedContains stored s.code = true) :
    stepSet fetch stored st s = { st with acc := st.acc ++ [s.code] } := by
  simp [stepSet, h]

theorem stepSet_ok {fetch : String → SearchOutcome} {stored : List String}
    {st : SyncState} {s : SetRecord} {items : List (Option Card)}
    (h : storedContains stored s.code = false)
    (hf : fetch s.code = SearchOutcome.ok items) :
    stepSet fetch stored st s =
      { acc := st.acc ++ [s.code], cardFile := st.cardFile ++ cardNames items
        notifs := st.notifs ++ [setNotif s.name s.code (cardNames items).length]
        errorReports := st.errorReports, fetched := st.fetched ++ [s.code] } := by
  simp [stepSet, h, hf, update_card_list]

theorem stepSet_notFound {fetch : String → SearchOutcome} {stored : List String}
    {st : SyncState} {s : SetRecord} (h : storedContains stored s.code = false)
    (hf : fetch s.code = SearchOutcome.notFound) :
    stepSet fetch stored st s = { st with fetched := st.fetched ++ [s.code] } := by
  simp [stepSet, h, hf, update_card_list]

theorem stepSet_err {fetch : String → SearchOutcome} {stored : List String}
    {st : SyncState} {s : SetRecord} (h : storedContains stored s.code = false)
    (hf : fetch s.code = SearchOutcome.otherErr) :
    stepSet fetch stored st s =
      { st with errorReports := st.errorReports + 1
                fetched := st.fetched ++ [s.code] } := by
  simp [stepSet, h, hf, update_card_list]

theorem foldl_stepSet_acc (fetch : String → SearchOutcome) (stored : List String)
    (l : List SetRecord) (st : SyncState) :
    (l.foldl (stepSet fetch stored) st).acc
      = st.acc ++ (l.filter (fun s => keepCode fetch stored s.code)).map SetRecord.code := by
  induction l generalizing st with
  | nil => simp
  | cons s l ih =>
    rw [List.foldl_cons, ih, List.filter_cons]
    by_cases h : storedContains stored s.code = true
    · rw [stepSet_stored h]
      simp [keepCode, h]
    · rw [Bool.not_eq_true] at h
      cases hf : fetch s.code with
      | ok items =>
        rw [stepSet_ok h hf]
        simp [keepCode, h, hf, isOkSearch]
      | notFound =>
        rw [stepSet_notFound h hf]
        simp [keepCode, h, hf, isOkSearch]
      | otherErr =>
        rw [stepSet_err h hf]
        simp [keepCode, h, hf, isOkSearch]

theorem foldl_stepSet_cardFile (fetch : String → SearchOutcome) (stored : List String)
    (l : List SetRecord) (st : SyncState) :
    (l.foldl (stepSet fetch stored) st).cardFile
      = st.cardFile ++ l.flatMap (fun s =>
          if storedContains stored s.code = true then [] else fetchAppends fetch s.code) := by
  induction l generalizing st with
  | nil => simp
  | cons s l ih =>
    rw [List.foldl_cons, ih, List.flatMap_cons]
    by_cases h : storedContains stored s.code = true
    · rw [stepSet_stored h]
      simp [h]
    · rw [Bool.not_eq_true] at h
      cases hf : fetch s.code with
      | ok items =>
        rw [stepSet_ok h hf]
        simp [h, fetchAppends, hf]
      | notFound =>
        rw [stepSet_notFound h hf]
        simp [h, fetchAppends, hf]
      | otherErr =>
        rw [stepSet_err h hf]
        simp [h, fetchAppends, hf]

theorem foldl_stepSet_fetched (fetch : String → SearchOutcome) (stored : List String)
    (l : List SetRecord) (st : SyncState) :
    (l.foldl (stepSet fetch stored) st).fetched
      = st.fetched ++ (l.filter (fun s => !storedContains stored s.code)).map SetRecord.code := by
  induction l generalizing st with
  | nil => simp
  | cons s l ih =>
    rw [List.foldl_cons, ih, List.filter_cons]
    by_cases h : storedContains stored s.code = true
    · rw [stepSet_stored h]
      simp [h]
    · rw [Bool.not_eq_true] at h
      cases hf : fetch s.code with
      | ok items =>
        rw [stepSet_ok h hf]
        simp [h, hf]
      | notFound =>
        rw [stepSet_notFound h hf]
        simp [h, hf]
      | otherErr =>
        rw [stepSet_err h hf]
        simp [h, hf]

theorem runSync_acc (today : Nat) (fetch : String → SearchOutcome)
    (stored cardFile : List String) (catalog : List (Option SetRecord)) :
    (runSync today fetch stored cardFile catalog).acc
      = ((eligibleSets today catalog).filter
          (fun s => keepCode fetch stored s.code)).map SetRecord.code := by
  unfold runSync
  rw [foldl_stepSet_acc]
  rfl

theorem runSync_cardFile (today : Nat) (fetch : String → SearchOutcome)
    (stored cardFile : List String) (catalog : List (Option SetRecord)) :
    (runSync today fetch stored cardFile catalog).cardFile
      = cardFile ++ (eligibleSets today catalog).flatMap (fun s =>
          if storedContains stored s.code = true then [] else fetchAppends fetch s.code) := by
  unfold runSync
  rw [foldl_stepSet_cardFile]

theorem runSync_fetched (today : Nat) (fetch : String → SearchOutcome)
    (stored cardFile : List String) (catalog : List (Option SetRecord)) :
    (runSync today fetch stored cardFile catalog).fetched
      = ((eligibleSets today catalog).filter
          (fun s => !storedContains stored s.code)).map SetRecord.code := by
  unfold runSync
  rw [foldl_stepSet_fetched]
  rfl

theorem mem_runSync_acc {today : Nat} {fetch : String → SearchOutcome}
    {stored cardFile : List String} {catalog : List (Option SetRecord)} {c : String} :
    c ∈ (runSync today fetch stored cardFile catalog).acc
      ↔ ∃ s ∈ eligibleSets today catalog,
          keepCode fetch stored s.code = true ∧ s.code = c := by
  rw [runSync_acc]
  simp only [List.mem_map, List.mem_filter]
  constructor
  · rintro ⟨s, ⟨h1, h2⟩, h3⟩
    exact ⟨s, h1, h2, h3⟩
  · rintro ⟨s, h1, h2, h3⟩
    exact ⟨s, ⟨h1, h2⟩, h3⟩

theorem missing_sets_acc (today : Nat) (fetch : String → SearchOutcome)
    (stored cardFile : List String) (catalog : List (Option SetRecord)) :
    (missing_sets today fetch stored cardFile catalog).acc
      = (runSync today fetch stored cardFile catalog).acc := by
  simp only [missing_sets]
  split <;> rfl

theorem missing_sets_cardFile (today : Nat) (fetch : String → SearchOutcome)
    (stored cardFile : List String) (catalog : List (Option SetRecord)) :
    (missing_sets today fetch stored cardFile catalog).cardFile
      = (runSync today fetch stored cardFile catalog).cardFile := by
  simp only [missing_sets]
  split <;> rfl

theorem missing_sets_fetched (today : Nat) (fetch : String → SearchOutcome)
    (stored cardFile : List String) (catalog : List (Option SetRecord)) :
    (missing_sets today fetch stored cardFile catalog).fetched
      = (runSync today fetch stored cardFile catalog).fetched := by
  simp only [missing_sets]
  split <;> rfl

theorem missing_sets_rewrote (today : Nat) (fetch : String → SearchOutcome)
    (stored cardFile : List String) (catalog : List (Option SetRecord)) :
    (missing_sets today fetch stored cardFile catalog).rewrote
      = !(runSync today fetch stored cardFile catalog).acc.isEmpty := by
  simp only [missing_sets]
  split <;> simp_all

theorem missing_sets_setStore (today : Nat) (fetch : String → SearchOutcome)
    (stored cardFile : List String) (catalog : List (Option SetRecord)) :
    (missing_sets today fetch stored cardFile catalog).setStore
      = if (runSync today fetch stored cardFile catalog).acc.isEmpty then stored
        else (runSync today fetch stored cardFile catalog).acc.mergeSort strLe := by
  simp only [missing_sets]
  split <;> simp_all

theorem fetchAppends_eq_nil (fetch : String → SearchOutcome) {c : String}
    (h : isOkSearch (fetch c) = false) : fetchAppends fetch c = [] := by
  unfold fetchAppends
  cases hc : fetch c with
  | ok items =>
    rw [hc] at h
    simp [isOkSearch] at h
  | notFound => rfl
  | otherErr => rfl

theorem store_sets_inv (chunks : List (List Char)) (acc : List Char)
    (trace : List (List Char)) (hinv : ∀ st ∈ trace, ∃ t, st ++ t = acc) :
    (∀ st ∈ (chunks.foldl
        (fun p chunk => (p.1 ++ chunk, p.2 ++ [p.1 ++ chunk])) (acc, trace)).2,
      ∃ t, st ++ t = (chunks.foldl
        (fun p chunk => (p.1 ++ chunk, p.2 ++ [p.1 ++ chunk])) (acc, trace)).1)
    ∧ (chunks.foldl
        (fun p chunk => (p.1 ++ chunk, p.2 ++ [p.1 ++ chunk])) (acc, trace)).1
      = acc ++ chunks.flatten := by
  induction chunks generalizing acc trace with
  | nil =>
    refine ⟨?_, by simp⟩
    simpa using hinv
  | cons chunk chunks ih =>
    rw [List.foldl_cons]
    have hinv2 : ∀ st ∈ trace ++ [acc ++ chunk], ∃ t, st ++ t = acc ++ chunk := by
      intro st hst
      rcases List.mem_append.mp hst with h | h
      · obtain ⟨t, ht⟩ := hinv st h
        exact ⟨t ++ chunk, by rw [← List.append_assoc, ht]⟩
      · rw [List.mem_singleton] at h
        exact ⟨[], by rw [h, List.append_nil]⟩
    obtain ⟨h1, h2⟩ := ih (acc ++ chunk) (trace ++ [acc ++ chunk]) hinv2
    exact ⟨h1, by rw [h2, List.flatten_cons, List.append_assoc]⟩

theorem store_sets_states (sets : List String) :
    (∀ st ∈ (store_sets sets).2, ∃ t, st ++ t = (store_sets sets).1)
    ∧ (store_sets sets).1 = (writeChunks sets).flatten := by
  unfold store_sets
  have h := store_sets_inv (writeChunks sets) [] [[]]
    (by
      intro st hst
      rw [List.mem_singleton] at hst
      exact ⟨[], by rw [hst]; rfl⟩)
  simpa using h

/-- Claim C1, counterexample: a pass in which zero sets were fetched (the
single eligible remote set "aaa" is already stored, so no fetch is even
attempted, let alone succeeds) still rewrites the SetStore file, and the
rewritten contents differ from the previous contents ["aaa", "bbb"]
because the stored code "bbb" is no longer among the eligible remote
sets.  This falsifies "the SetStore file is left untouched". -/
theorem claim_C1_cex :
    (missing_sets 100 (fun _ => SearchOutcome.notFound) ["aaa", "bbb"] []
        [some ⟨"aaa", "A", SetType.expansion, false, some 0⟩]).fetched = []
    ∧ (missing_sets 100 (fun _ => SearchOutcome.notFound) ["aaa", "bbb"] []
        [some ⟨"aaa", "A", SetType.expansion, false, some 0⟩]).rewrote = true
    ∧ (missing_sets 100 (fun _ => SearchOutcome.notFound) ["aaa", "bbb"] []
        [some ⟨"aaa", "A", SetType.expansion, false, some 0⟩]).setStore = ["aaa"]
    ∧ (missing_sets 100 (fun _ => SearchOutcome.notFound) ["aaa", "bbb"] []
        [some ⟨"aaa", "A", SetType.expansion, false, some 0⟩]).setStore
        ≠ ["aaa", "bbb"] := by
  have hss : (missing_sets 100 (fun _ => SearchOutcome.notFound) ["aaa", "bbb"] []
      [some ⟨"aaa", "A", SetType.expansion, false, some 0⟩]).setStore
      = List.mergeSort ["aaa"] strLe := rfl
  rw [List.mergeSort_of_sorted (by decide)] at hss
  refine ⟨by decide, by decide, hss, ?_⟩
  rw [hss]
  decide

/-- Claim C1 (amended): the SetStore file is left untouched exactly when
the pass accumulator stays empty, i.e. when no eligible remote set is
already stored AND no fetch of an eligible set succeeds; and whenever it is
untouched its contents are the previous contents.  (A pass with zero
successful fetches but at least one already-stored eligible set still
rewrites the file, as the counterexample shows.) -/
theorem claim_C1 (today : Nat) (fetch : String → SearchOutcome)
    (stored cardFile : List String) (catalog : List (Option SetRecord)) :
    ((missing_sets today fetch stored cardFile catalog).rewrote = false
      ↔ (eligibleSets today catalog).all
          (fun s => !storedContains stored s.code
            && !isOkSearch (fetch s.code)) = true)
    ∧ ((missing_sets today fetch stored cardFile catalog).rewrote = false →
        (missing_sets today fetch stored cardFile catalog).setStore = stored) := by
  have hchar : (missing_sets today fetch stored cardFile catalog).rewrote = false
      ↔ (runSync today fetch stored cardFile catalog).acc.isEmpty = true := by
    rw [missing_sets_rewrote]
    cases (runSync today fetch stored cardFile catalog).acc.isEmpty <;> simp
  constructor
  · rw [hchar, List.isEmpty_iff, runSync_acc, List.map_eq_nil_iff,
      List.filter_eq_nil_iff, List.all_eq_true]
    constructor
    · intro h s hs
      have hk := h s hs
      rw [Bool.not_eq_true, keepCode, Bool.or_eq_false_iff] at hk
      rw [Bool.and_eq_true, Bool.not_eq_true', Bool.not_eq_true']
      exact hk
    · intro h s hs
      have hk := h s hs
      rw [Bool.and_eq_true, Bool.not_eq_true', Bool.not_eq_true'] at hk
      rw [Bool.not_eq_true, keepCode, Bool.or_eq_false_iff]
      exact hk
  · intro h
    rw [hchar] at h
    rw [missing_sets_setStore, if_pos h]

/-- Claim C1 instantiated at a concrete input. -/
theorem claim_C1_witness :
    ((missing_sets 0 (fun _ => SearchOutcome.notFound) [] [] []).rewrote = false
      ↔ (eligibleSets 0 []).all
          (fun s => !storedContains [] s.code
            && !isOkSearch ((fun _ => SearchOutcome.notFound) s.code)) = true)
    ∧ ((missing_sets 0 (fun _ => SearchOutcome.notFound) [] [] []).rewrote = false →
        (missing_sets 0 (fun _ => SearchOutcome.notFound) [] [] []).setStore = []) :=
  claim_C1 0 (fun _ => SearchOutcome.notFound) [] [] []

/-- Claim C2, counterexample: a non-digital expansion with a release date
one day in the future (today = 100, released_at = 101) is accepted by the
filter in the code — the code compares against `new_set_threashold`, today
plus one week — whereas the predicate of the claim ("released_at unset or in
the future relative to now → false") rejects it. -/
theorem claim_C2_cex :
    eligible 100 ⟨"one", "One", SetType.expansion, false, some 101⟩ = true
    ∧ specEligible 100 ⟨"one", "One", SetType.expansion, false, some 101⟩ = false
    ∧ (⟨"one", "One", SetType.expansion, false, some 101⟩ : SetRecord).released_at
        = some 101
    ∧ 100 < 101 := by
  refine ⟨by decide, by decide, rfl, by omega⟩

/-- Claim C2 (amended): the set-eligibility filter is a total pure
predicate, but its release-date cutoff is one week in the future: a
`SetRecord` is eligible iff its `set_type` is not one of {memorabilia,
token, alchemy, treasure-chest, promo}, its digital flag is false, and
its release date is set and at most `today + 7` (the
`new_set_threashold` of the code, a one-week forward grace window) —
not `today`.  The second conjunct states that the three chained stream filters
compute exactly this one predicate. -/
theorem claim_C2 (today : Nat) (s : SetRecord) (catalog : List (Option SetRecord)) :
    (eligible today s = true ↔
      s.set_type ∉ excludedSetTypes ∧ s.digital = false
        ∧ ∃ d, s.released_at = some d ∧ d ≤ today + 7)
    ∧ eligibleSets today catalog = (catalog.filterMap id).filter (eligible today) := by
  constructor
  · unfold eligible typeFilterOk releasedOk new_set_threashold
    cases hrel : s.released_at with
    | none => simp
    | some d =>
      simp only [Bool.and_eq_true, List.all_eq_true, decide_eq_true_eq]
      constructor
      · rintro ⟨⟨h1, h2⟩, h3⟩
        refine ⟨?_, by simpa using h2, d, rfl, h3⟩
        intro hcon
        exact absurd rfl (h1 s.set_type hcon)
      · rintro ⟨h1, h2, d2, hd2, h3⟩
        obtain rfl : d = d2 := Option.some_injective _ hd2
        refine ⟨⟨?_, by simp [h2]⟩, h3⟩
        intro t ht heq
        exact h1 (heq ▸ ht)
  · unfold eligibleSets eligible
    rw [List.filter_filter, List.filter_filter]
    apply List.filter_congr
    intro x _
    cases typeFilterOk x <;> cases hx : x.digital
      <;> cases releasedOk (new_set_threashold today) x <;> simp [hx]

/-- Claim C3, counterexample: `store_sets` is not an atomic overwrite.
Rewriting a SetStore that previously held "a\n" with the single code "b"
passes through the observable on-disk states [] (truncated by
`File::create`) and ['b'] (code written, newline not yet written); both
differ from the previous contents ['a', '\n'] and from the final
contents ['b', '\n'], so a failure partway does NOT preserve the
previous complete contents. -/
theorem claim_C3_cex :
    (store_sets ["b"]).2 = [[], ['b'], ['b', '\n']]
    ∧ ['b'] ∈ (store_sets ["b"]).2
    ∧ ['b'] ≠ ['a', '\n']
    ∧ ['b'] ≠ (store_sets ["b"]).1
    ∧ [] ∈ (store_sets ["b"]).2
    ∧ ([] : List Char) ≠ ['a', '\n'] := by
  decide

/-- Claim C3 (amended): the SetStore rewrite is a truncate-then-write,
not an atomic replacement: every observable on-disk state during the
rewrite is a prefix of the new serialized contents (so the file never
holds a mixture of old and new data and nothing is appended to the old
contents), and on completion the file holds exactly the serialization of
the sorted code list; but the previous contents are destroyed by the
initial truncation, so a failure partway leaves a proper prefix of the
NEW contents rather than the previous complete contents. -/
theorem claim_C3 (sets : List String) :
    (∀ st ∈ (store_sets sets).2, ∃ t, st ++ t = (store_sets sets).1)
    ∧ (store_sets sets).1 = (writeChunks sets).flatten :=
  store_sets_states sets

/-- Claim C3 instantiated at a concrete input. -/
theorem claim_C3_witness :
    ((∀ st ∈ (store_sets ["b"]).2, ∃ t, st ++ t = (store_sets ["b"]).1)
      ∧ (store_sets ["b"]).1 = (writeChunks ["b"]).flatten)
    ∧ (store_sets ["b"]).1 = ['b', '\n'] :=
  ⟨claim_C3 ["b"], by decide⟩

/-- Claim C4: for a sorted stored code list, a card fetch is attempted
exactly for the eligible sets whose code is absent from the stored list
(the binary-search membership test agrees with list membership on sorted
input), and every eligible set whose code is present in the stored list
keeps its code in the accumulator without being fetched. -/
theorem claim_C4 (today : Nat) (fetch : String → SearchOutcome)
    (stored cardFile : List String) (catalog : List (Option SetRecord))
    (hs : List.Pairwise (fun a b => strLe a b = true) stored) :
    (missing_sets today fetch stored cardFile catalog).fetched
      = ((eligibleSets today catalog).filter
          (fun s => decide (s.code ∉ stored))).map SetRecord.code
    ∧ ((eligibleSets today catalog).filter
        (fun s => decide (s.code ∈ stored))).all
        (fun s => decide
          (s.code ∈ (missing_sets today fetch stored cardFile catalog).acc)) = true := by
  constructor
  · rw [missing_sets_fetched, runSync_fetched]
    congr 1
    apply List.filter_congr
    intro x _
    rw [storedContains_eq_decide hs, decide_not]
  · rw [List.all_eq_true]
    intro s hsmem
    rw [List.mem_filter, decide_eq_true_eq] at hsmem
    obtain ⟨h1, h2⟩ := hsmem
    rw [decide_eq_true_eq, missing_sets_acc]
    have hc : storedContains stored s.code = true := (storedContains_iff hs).mpr h2
    exact mem_runSync_acc.mpr ⟨s, h1, by simp [keepCode, hc], rfl⟩

/-- Claim C4 instantiated: stored codes {"aaa", "ccc"}, eligible remote
codes {"aaa", "bbb", "ccc", "ddd"} — exactly {"bbb", "ddd"} are
fetched. -/
theorem claim_C4_witness :
    List.Pairwise (fun a b => strLe a b = true) ["aaa", "ccc"]
    ∧ ((missing_sets 100 (fun _ => SearchOutcome.ok []) ["aaa", "ccc"] []
          [some ⟨"aaa", "A", SetType.expansion, false, some 0⟩,
           some ⟨"bbb", "B", SetType.expansion, false, some 0⟩,
           some ⟨"ccc", "C", SetType.expansion, false, some 0⟩,
           some ⟨"ddd", "D", SetType.expansion, false, some 0⟩]).fetched
        = ((eligibleSets 100
            [some ⟨"aaa", "A", SetType.expansion, false, some 0⟩,
             some ⟨"bbb", "B", SetType.expansion, false, some 0⟩,
             some ⟨"ccc", "C", SetType.expansion, false, some 0⟩,
             some ⟨"ddd", "D", SetType.expansion, false, some 0⟩]).filter
            (fun s => decide (s.code ∉ ["aaa", "ccc"]))).map SetRecord.code
      ∧ ((eligibleSets 100
            [some ⟨"aaa", "A", SetType.expansion, false, some 0⟩,
             some ⟨"bbb", "B", SetType.expansion, false, some 0⟩,
             some ⟨"ccc", "C", SetType.expansion, false, some 0⟩,
             some ⟨"ddd", "D", SetType.expansion, false, some 0⟩]).filter
            (fun s => decide (s.code ∈ ["aaa", "ccc"]))).all
          (fun s => decide
            (s.code ∈ (missing_sets 100 (fun _ => SearchOutcome.ok []) ["aaa", "ccc"] []
              [some ⟨"aaa", "A", SetType.expansion, false, some 0⟩,
               some ⟨"bbb", "B", SetType.expansion, false, some 0⟩,
               some ⟨"ccc", "C", SetType.expansion, false, some 0⟩,
               some ⟨"ddd", "D", SetType.expansion, false, some 0⟩]).acc)) = true)
    ∧ (missing_sets 100 (fun _ => SearchOutcome.ok []) ["aaa", "ccc"] []
          [some ⟨"aaa", "A", SetType.expansion, false, some 0⟩,
           some ⟨"bbb", "B", SetType.expansion, false, some 0⟩,
           some ⟨"ccc", "C", SetType.expansion, false, some 0⟩,
           some ⟨"ddd", "D", SetType.expansion, false, some 0⟩]).fetched
        = ["bbb", "ddd"] :=
  ⟨by decide,
   claim_C4 100 (fun _ => SearchOutcome.ok []) ["aaa", "ccc"] []
     [some ⟨"aaa", "A", SetType.expansion, false, some 0⟩,
      some ⟨"bbb", "B", SetType.expansion, false, some 0⟩,
      some ⟨"ccc", "C", SetType.expansion, false, some 0⟩,
      some ⟨"ddd", "D", SetType.expansion, false, some 0⟩] (by decide),
   by decide⟩

/-- Claim C5: a fetch that reports the 404 "not yet populated" condition
returns the non-error value `Ok(false)` — distinct from a successful
fetch with zero cards, which returns `Ok(true)` — appends nothing,
emits no notification; the processing step of the set only records the
attempted fetch, leaving accumulator, card file, notifications and error
reports unchanged (so the pass continues with the remaining sets and is
not marked updated by this set); and the code is absent from the
accumulator and from the resulting SetStore contents. -/
theorem claim_C5 (today : Nat) (fetch : String → SearchOutcome)
    (stored cardFile : List String) (catalog : List (Option SetRecord))
    (c nm : String) (st : SyncState) (s : SetRecord)
    (hs : List.Pairwise (fun a b => strLe a b = true) stored)
    (hmem : c ∉ stored) (hf : fetch c = SearchOutcome.notFound)
    (hsc : s.code = c) :
    (update_card_list cardFile c nm SearchOutcome.notFound).result
        = UpdateResult.ok false
    ∧ (update_card_list cardFile c nm SearchOutcome.notFound).result
        ≠ (update_card_list cardFile c nm (SearchOutcome.ok [])).result
    ∧ (update_card_list cardFile c nm SearchOutcome.notFound).cardFile = cardFile
    ∧ (update_card_list cardFile c nm SearchOutcome.notFound).notifs = []
    ∧ stepSet fetch stored st s = { st with fetched := st.fetched ++ [c] }
    ∧ c ∉ (missing_sets today fetch stored cardFile catalog).acc
    ∧ c ∉ (missing_sets today fetch stored cardFile catalog).setStore := by
  have hscF : storedContains stored c = false := by
    rw [Bool.eq_false_iff]
    intro hcon
    exact hmem ((storedContains_iff hs).mp hcon)
  have hacc : c ∉ (runSync today fetch stored cardFile catalog).acc := by
    intro hcon
    obtain ⟨s2, hs1, hs2, hs3⟩ := mem_runSync_acc.mp hcon
    rw [hs3, keepCode, hscF, hf] at hs2
    simp [isOkSearch] at hs2
  refine ⟨rfl, by simp [update_card_list], rfl, rfl, ?_, ?_, ?_⟩
  · have h1 : storedContains stored s.code = false := by
      rw [hsc]
      exact hscF
    have h2 : fetch s.code = SearchOutcome.notFound := by
      rw [hsc]
      exact hf
    rw [stepSet_notFound h1 h2, hsc]
  · rw [missing_sets_acc]
    exact hacc
  · rw [missing_sets_setStore]
    by_cases hemp : (runSync today fetch stored cardFile catalog).acc.isEmpty = true
    · rw [if_pos hemp]
      exact hmem
    · rw [if_neg hemp]
      intro hcon
      exact hacc (List.mem_mergeSort.mp hcon)

/-- Claim C5 instantiated: stored = ["aaa"], one eligible remote set
"xyz" whose fetch reports 404. -/
theorem claim_C5_witness :
    List.Pairwise (fun a b => strLe a b = true) ["aaa"]
    ∧ "xyz" ∉ ["aaa"]
    ∧ (fun _ : String => SearchOutcome.notFound) "xyz" = SearchOutcome.notFound
    ∧ ((update_card_list ["old"] "xyz" "X" SearchOutcome.notFound).result
          = UpdateResult.ok false
      ∧ (update_card_list ["old"] "xyz" "X" SearchOutcome.notFound).result
          ≠ (update_card_list ["old"] "xyz" "X" (SearchOutcome.ok [])).result
      ∧ (update_card_list ["old"] "xyz" "X" SearchOutcome.notFound).cardFile = ["old"]
      ∧ (update_card_list ["old"] "xyz" "X" SearchOutcome.notFound).notifs = []
      ∧ stepSet (fun _ => SearchOutcome.notFound) ["aaa"]
          { acc := [], cardFile := [], notifs := [], errorReports := 0, fetched := [] }
          ⟨"xyz", "X", SetType.expansion, false, some 0⟩
          = { acc := [], cardFile := [], notifs := [], errorReports := 0,
              fetched := [] ++ ["xyz"] }
      ∧ "xyz" ∉ (missing_sets 100 (fun _ => SearchOutcome.notFound) ["aaa"] ["old"]
          [some ⟨"xyz", "X", SetType.expansion, false, some 0⟩]).acc
      ∧ "xyz" ∉ (missing_sets 100 (fun _ => SearchOutcome.notFound) ["aaa"] ["old"]
          [some ⟨"xyz", "X", SetType.expansion, false, some 0⟩]).setStore) :=
  ⟨by decide, by decide, rfl,
   claim_C5 100 (fun _ => SearchOutcome.notFound) ["aaa"] ["old"]
     [some ⟨"xyz", "X", SetType.expansion, false, some 0⟩] "xyz" "X"
     { acc := [], cardFile := [], notifs := [], errorReports := 0, fetched := [] }
     ⟨"xyz", "X", SetType.expansion, false, some 0⟩
     (by decide) (by decide) rfl rfl⟩

/-- Claim C6: in a successful fetch, the names appended to the card list
are exactly the names of the streamed entries whose type line is not
exactly "Basic", not exactly "Token" (exact match on the whole type
field), and whose name is not the pathological long card name; the
running count equals the number of such surviving names. -/
theorem claim_C6 (cardFile : List String) (set_code set_name : String)
    (items : List (Option Card)) :
    (update_card_list cardFile set_code set_name (SearchOutcome.ok items)).cardFile
      = cardFile ++ ((items.filterMap id).filter
          (fun c => decide (c.type_line ≠ some "Basic")
            && decide (c.type_line ≠ some "Token")
            && decide (c.name ≠ JUST_DONT))).map Card.name
    ∧ (update_card_list cardFile set_code set_name (SearchOutcome.ok items)).count
      = (((items.filterMap id).filter
          (fun c => decide (c.type_line ≠ some "Basic")
            && decide (c.type_line ≠ some "Token")
            && decide (c.name ≠ JUST_DONT))).map Card.name).length
    ∧ (update_card_list cardFile set_code set_name (SearchOutcome.ok items)).result
      = UpdateResult.ok true := by
  have key : cardNames items = ((items.filterMap id).filter
      (fun c => decide (c.type_line ≠ some "Basic")
        && decide (c.type_line ≠ some "Token")
        && decide (c.name ≠ JUST_DONT))).map Card.name := by
    unfold cardNames
    rw [List.filter_map, List.filter_filter]
    congr 1
    apply List.filter_congr
    intro x _
    cases h1 : decide (x.type_line ≠ some "Basic")
      <;> cases h2 : decide (x.type_line ≠ some "Token")
      <;> cases h3 : decide (x.name ≠ JUST_DONT)
      <;> simp [Function.comp, h1, h2, h3]
  refine ⟨?_, ?_, rfl⟩
  · simp [update_card_list, key]
  · simp [update_card_list, key]

/-- Claim C7, counterexample: a successful fetch whose stream yields
zero cards (count = 0) still emits the "Set ... added!" notification,
with body "0 new cards added!" — the notification is NOT emitted "exactly
when the count is greater than zero". -/
theorem claim_C7_cex :
    (update_card_list [] "abc" "Test Set" (SearchOutcome.ok [])).count = 0
    ∧ (update_card_list [] "abc" "Test Set" (SearchOutcome.ok [])).result
        = UpdateResult.ok true
    ∧ (update_card_list [] "abc" "Test Set" (SearchOutcome.ok [])).notifs
        = [⟨"Set Test Set (abc) added!", "0 new cards added!"⟩] := by
  refine ⟨rfl, rfl, ?_⟩
  decide

/-- Claim C7 (amended): the low-urgency "Set {name} ({code}) added!
{count} new cards added!" notification is emitted exactly when the fetch
succeeds — including a success whose count is zero; a fetch that returns
the not-populated condition (and likewise a failed fetch) emits no such
notification. -/
theorem claim_C7 (cardFile : List String) (set_code set_name : String)
    (search : SearchOutcome) :
    ((update_card_list cardFile set_code set_name search).notifs.isEmpty = false
      ↔ (update_card_list cardFile set_code set_name search).result
          = UpdateResult.ok true)
    ∧ (update_card_list cardFile set_code set_name search).notifs
      = (if isOkSearch search = true
          then [setNotif set_name set_code
            (update_card_list cardFile set_code set_name search).count]
          else []) := by
  cases search <;> simp [update_card_list, isOkSearch]

/-- Claim C7 instantiated at a concrete input. -/
theorem claim_C7_witness :
    ((update_card_list [] "ab" "S" SearchOutcome.notFound).notifs.isEmpty = false
      ↔ (update_card_list [] "ab" "S" SearchOutcome.notFound).result
          = UpdateResult.ok true)
    ∧ (update_card_list [] "ab" "S" SearchOutcome.notFound).notifs
      = (if isOkSearch SearchOutcome.notFound = true
          then [setNotif "S" "ab"
            (update_card_list [] "ab" "S" SearchOutcome.notFound).count]
          else []) :=
  claim_C7 [] "ab" "S" SearchOutcome.notFound

/-- Claim C8: idempotence.  Running a full sync pass a second time,
against the SetStore and CardListStore the first pass produced, with the
same remote catalog and the same per-set fetch behavior, appends nothing
to the card list (the card file after the second pass equals the one after the first)
and leaves the SetStore contents identical. -/
theorem claim_C8 (today : Nat) (fetch : String → SearchOutcome)
    (stored cardFile : List String) (catalog : List (Option SetRecord)) :
    (missing_sets today fetch
        (missing_sets today fetch stored cardFile catalog).setStore
        (missing_sets today fetch stored cardFile catalog).cardFile catalog).cardFile
      = (missing_sets today fetch stored cardFile catalog).cardFile
    ∧ (missing_sets today fetch
        (missing_sets today fetch stored cardFile catalog).setStore
        (missing_sets today fetch stored cardFile catalog).cardFile catalog).setStore
      = (missing_sets today fetch stored cardFile catalog).setStore := by
  have hB : ∀ s ∈ eligibleSets today catalog,
      storedContains (missing_sets today fetch stored cardFile catalog).setStore
        s.code = false → isOkSearch (fetch s.code) = false := by
    by_cases hemp : (runSync today fetch stored cardFile catalog).acc.isEmpty = true
    · have hkF : ∀ s ∈ eligibleSets today catalog,
          keepCode fetch stored s.code = false := by
        rw [List.isEmpty_iff, runSync_acc, List.map_eq_nil_iff,
          List.filter_eq_nil_iff] at hemp
        intro s hs
        exact Bool.eq_false_iff.mpr (hemp s hs)
      intro s hs _
      have hk := hkF s hs
      rw [keepCode, Bool.or_eq_false_iff] at hk
      exact hk.2
    · intro s hs hsc
      have hss : (missing_sets today fetch stored cardFile catalog).setStore
          = (runSync today fetch stored cardFile catalog).acc.mergeSort strLe := by
        rw [missing_sets_setStore, if_neg hemp]
      rw [hss] at hsc
      have hnotmem : s.code ∉ (runSync today fetch stored cardFile catalog).acc := by
        intro hcon
        have hin : storedContains
            ((runSync today fetch stored cardFile catalog).acc.mergeSort strLe)
            s.code = true := by
          rw [storedContains_iff (pairwise_mergeSort_strLe _), List.mem_mergeSort]
          exact hcon
        rw [hsc] at hin
        exact Bool.false_ne_true hin
      have hk : keepCode fetch stored s.code = false := by
        rw [Bool.eq_false_iff]
        intro hcon
        exact hnotmem (mem_runSync_acc.mpr ⟨s, hs, hcon, rfl⟩)
      rw [keepCode, Bool.or_eq_false_iff] at hk
      exact hk.2
  have hA : ∀ s ∈ eligibleSets today catalog,
      keepCode fetch (missing_sets today fetch stored cardFile catalog).setStore s.code
        = keepCode fetch stored s.code := by
    by_cases hemp : (runSync today fetch stored cardFile catalog).acc.isEmpty = true
    · have hss : (missing_sets today fetch stored cardFile catalog).setStore
          = stored := by
        rw [missing_sets_setStore, if_pos hemp]
      intro s _
      rw [hss]
    · have hss : (missing_sets today fetch stored cardFile catalog).setStore
          = (runSync today fetch stored cardFile catalog).acc.mergeSort strLe := by
        rw [missing_sets_setStore, if_neg hemp]
      have hcont : ∀ c, storedContains
          ((runSync today fetch stored cardFile catalog).acc.mergeSort strLe) c = true
          ↔ c ∈ (runSync today fetch stored cardFile catalog).acc := by
        intro c
        rw [storedContains_iff (pairwise_mergeSort_strLe _), List.mem_mergeSort]
      intro s hs
      by_cases hk : keepCode fetch stored s.code = true
      · rw [hk, hss, keepCode, Bool.or_eq_true]
        left
        exact (hcont s.code).mpr (mem_runSync_acc.mpr ⟨s, hs, hk, rfl⟩)
      · have hk2 : keepCode fetch stored s.code = false := Bool.eq_false_iff.mpr hk
        rw [hk2, hss, keepCode, Bool.or_eq_false_iff]
        constructor
        · rw [Bool.eq_false_iff]
          intro hcon
          obtain ⟨s2, hs1, hs2, hs3⟩ := mem_runSync_acc.mp ((hcont s.code).mp hcon)
          rw [hs3, hk2] at hs2
          exact Bool.false_ne_true hs2
        · rw [keepCode, Bool.or_eq_false_iff] at hk2
          exact hk2.2
  have hacc2 : (runSync today fetch
      (missing_sets today fetch stored cardFile catalog).setStore
      (missing_sets today fetch stored cardFile catalog).cardFile catalog).acc
      = (runSync today fetch stored cardFile catalog).acc := by
    rw [runSync_acc, runSync_acc]
    congr 1
    exact List.filter_congr hA
  constructor
  · rw [missing_sets_cardFile, runSync_cardFile]
    have hnil : (eligibleSets today catalog).flatMap (fun s =>
        if storedContains (missing_sets today fetch stored cardFile catalog).setStore
            s.code = true then []
        else fetchAppends fetch s.code) = [] := by
      rw [List.flatMap_eq_nil_iff]
      intro s hs
      by_cases h : storedContains
          (missing_sets today fetch stored cardFile catalog).setStore s.code = true
      · rw [if_pos h]
      · rw [if_neg h]
        exact fetchAppends_eq_nil fetch (hB s hs (Bool.eq_false_iff.mpr h))
    rw [hnil, List.append_nil]
  · rw [missing_sets_setStore, hacc2]
    by_cases hemp : (runSync today fetch stored cardFile catalog).acc.isEmpty = true
    · rw [if_pos hemp]
    · rw [if_neg hemp, missing_sets_setStore, if_neg hemp]

/-- Claim C9: mutual exclusion via UpdateLock.  Whatever the two fault
injections, at most one of two lock attempts on the same (initially
free) lock acquires it; in the fault-free contention case the loser
observes AlreadyHeld; the AlreadyHeld outcome is dispatched to a silent
skip and the I/O-error outcome to a report-and-skip, neither of which
can write SetStore or CardListStore; only an acquired lock runs the sync
pass; and `try_lock` is a total function (it never waits). -/
theorem claim_C9 (f1 f2 : Bool) :
    (((try_lock f1 false).1 == LockResult.acquired)
        && ((try_lock f2 (try_lock f1 false).2).1 == LockResult.acquired)) = false
    ∧ (try_lock false (try_lock false false).2).1 = LockResult.alreadyHeld
    ∧ (try_lock false false).1 = LockResult.acquired
    ∧ card_list_dispatch LockResult.acquired = SyncAction.runSync
    ∧ card_list_dispatch LockResult.alreadyHeld = SyncAction.skipSilently
    ∧ actionWrites SyncAction.skipSilently = false
    ∧ card_list_dispatch LockResult.ioErr = SyncAction.reportAndSkip
    ∧ actionWrites SyncAction.reportAndSkip = false := by
  cases f1 <;> cases f2 <;> decide

/-- Claim C10: a per-item deserialization error in the catalog-listing
stream, and likewise in the card stream of a set, is silently dropped: the
whole pass outcome (SetStore, rewrite flag, accumulator, card file,
notifications, error-report count, fetched codes) with the bad item in
the stream equals the outcome with the item removed, and the same holds
for a single `update_card_list` call — no error is reported, the per-set
fetch is not failed, and the pass completes. -/
theorem claim_C10 (today : Nat) (fetch : String → SearchOutcome)
    (stored cardFile : List String) (l1 l2 : List (Option SetRecord))
    (cf : List String) (sc sn : String) (i1 i2 : List (Option Card)) :
    missing_sets today fetch stored cardFile (l1 ++ none :: l2)
      = missing_sets today fetch stored cardFile (l1 ++ l2)
    ∧ update_card_list cf sc sn (SearchOutcome.ok (i1 ++ none :: i2))
      = update_card_list cf sc sn (SearchOutcome.ok (i1 ++ i2)) := by
  have hcat : eligibleSets today (l1 ++ none :: l2)
      = eligibleSets today (l1 ++ l2) := by
    simp [eligibleSets]
  have hnames : cardNames (i1 ++ none :: i2) = cardNames (i1 ++ i2) := by
    unfold cardNames
    have hitems : (i1 ++ none :: i2).filterMap id = (i1 ++ i2).filterMap id := by
      simp
    rw [hitems]
  constructor
  · unfold missing_sets runSync
    rw [hcat]
  · simp only [update_card_list]
    rw [hnames]

end Foretell
